import Mathlib

/-!
# Verification of the Instagram profile scraper (`scraper.py`)

Shallow embedding of the scraper's core logic: string/URL utilities,
the modal-navigation traversal, the selector-fallback actions, the
login/session state machine and the multi-profile orchestrator.
Effectful collaborators (the Selenium driver, the file system, the
clock) are modelled as explicit environment inputs; every function of
the source that a claim touches becomes a total Lean function over
those inputs.
-/

namespace Scraper

/-! ## Python string primitives

`beginsWith n l` is `l.startswith(n)`, `containsSub n l` is `n in l`,
and `cutAt n l` is `l.split(n)[0]` (the whole string when `n` does not
occur).  All operate on `List Char` so that the lemmas can proceed by
structural induction; `String` wrappers are provided below. -/

def beginsWith : List Char → List Char → Bool
  | [], _ => true
  | _ :: _, [] => false
  | a :: as, b :: bs => if a = b then beginsWith as bs else false

def containsSub (needle : List Char) : List Char → Bool
  | [] => beginsWith needle []
  | c :: rest => beginsWith needle (c :: rest) || containsSub needle rest

def cutAt (needle : List Char) : List Char → List Char
  | [] => []
  | c :: rest => if beginsWith needle (c :: rest) then [] else c :: cutAt needle rest

/-- `dropThrough n l` is the remainder of `l` after the first occurrence of
`n`; `l.split(n)[1]` truncated at the next occurrence agrees with it up to
the following `/`, which is all `extract_content_id` keeps. -/
def dropThrough (needle : List Char) : List Char → List Char
  | [] => []
  | c :: rest =>
    if beginsWith needle (c :: rest) then (c :: rest).drop needle.length
    else dropThrough needle rest

def strContainsSub (needle s : String) : Bool :=
  containsSub needle.toList s.toList

/-! ## `extract_content_id` (scraper.py lines 802–821)

```python
if "/p/" in content_url:
    content_id = content_url.split("/p/")[1].split("/")[0]
elif "/reel/" in content_url:
    content_id = content_url.split("/reel/")[1].split("/")[0]
else:
    content_id = "unknown"
```
`split(marker)[1].split("/")[0]` is the text after the first occurrence of
the marker up to the next `/` (any later marker occurrence starts with `/`,
so stopping at the next marker or at the next `/` coincide). -/

def extract_content_id (content_url : String) : String :=
  if strContainsSub "/p/" content_url then
    String.mk ((dropThrough "/p/".toList content_url.toList).takeWhile (fun c => ¬ c = '/'))
  else if strContainsSub "/reel/" content_url then
    String.mk ((dropThrough "/reel/".toList content_url.toList).takeWhile (fun c => ¬ c = '/'))
  else
    "unknown"

/-! ## URL cleaning in `_get_current_modal_post_url` (lines 603–627)

```python
if "/p/" not in current_url:
    return None
clean_url = current_url.split('/liked_by')[0].split('/comments')[0]
                       .split('/tagged')[0].split('?')[0]
if not clean_url.endswith('/'):
    clean_url += '/'
```
-/

def endsWithSlash (l : List Char) : Bool :=
  l.getLast? = some '/'

/-- The four sequential `split(...)[0]` applications of line 614. -/
def stripSegments (u : List Char) : List Char :=
  cutAt "?".toList (cutAt "/tagged".toList (cutAt "/comments".toList (cutAt "/liked_by".toList u)))

def cleanModalUrl (u : List Char) : List Char :=
  if endsWithSlash (stripSegments u) then stripSegments u else stripSegments u ++ ['/']

def normalizeModalUrl (s : String) : String :=
  String.mk (cleanModalUrl s.toList)

/-- The reader's input address is `none` when reading the live address
itself raised (the source returns `None` from its `except` branch). -/
def getCurrentModalPostUrl : Option String → Option String
  | none => none
  | some current_url =>
    if strContainsSub "/p/" current_url then some (normalizeModalUrl current_url)
    else none

/-! ## Selector fallback (`_click_first_post`, `_go_to_next_post`, `_close_modal`)

Each action is an ordered strategy list; every strategy is attempted inside
its own `try`, a raising or timing-out strategy counts as a failed one, and
the first succeeding strategy ends the action with `True`.  Exhausting the
list (and the outer `except`) yields `False` — the action's type is a plain
boolean either way. -/

inductive StratOutcome where
  | success
  | failure
  | raises
deriving DecidableEq, Repr

def runFallback : List StratOutcome → Bool
  | [] => false
  | .success :: _ => true
  | .failure :: rest => runFallback rest
  | .raises :: rest => runFallback rest

/-- `_click_first_post` (lines 524–554): three locator strategies. -/
def click_first_post (o1 o2 o3 : StratOutcome) : Bool :=
  runFallback [o1, o2, o3]

/-- `_go_to_next_post` (lines 629–683): three next-button locators, then the
keyboard arrow, then the scripted click. -/
def go_to_next_post (o1 o2 o3 o4 o5 : StratOutcome) : Bool :=
  runFallback [o1, o2, o3, o4, o5]

/-- `_close_modal` (lines 685–722): three close-button locators, then ESC. -/
def close_modal (o1 o2 o3 o4 : StratOutcome) : Bool :=
  runFallback [o1, o2, o3, o4]

/-! ## Modal navigation traversal (`_navigate_posts_via_arrows`, lines 556–601)

One loop iteration observes the live browser address (`view addr next`,
where `addr = none` models the reader raising, and `next` is whether some
advance strategy succeeded) or raises in the loop body (`err`, which breaks
out).  An exhausted step list behaves like a break.  A `ContentRecord` is
the dict built at lines 572–578; the wall-clock `scraped_at` field carries
no logic and is omitted from the embedding. -/

structure ContentRecord where
  content_url : String
  content_id : String
  content_type : String
  order : Nat
deriving DecidableEq, Repr

inductive NavStep where
  | view (addr : Option String) (next : Bool)
  | err
deriving DecidableEq, Repr

/-- Lines 569–579: if the reader produced a reference and it is not among
the already-collected `content_url`s, append a record with
`order = len(posts_data) + 1`. -/
def collectRecord (acc : List ContentRecord) : Option String → List ContentRecord
  | some u =>
    if u ∈ acc.map ContentRecord.content_url then acc
    else acc ++ [⟨u, extract_content_id u, "post", acc.length + 1⟩]
  | none => acc

def navLoop (num_posts : Nat) : List NavStep → Nat → List ContentRecord → List ContentRecord
  | [], _, acc => acc
  | step :: rest, attempts, acc =>
    if acc.length < num_posts ∧ attempts < num_posts + 2 then
      match step with
      | .err => acc
      | .view addr next =>
        let acc' := collectRecord acc (getCurrentModalPostUrl addr)
        if num_posts ≤ acc'.length then acc'
        else if next then navLoop num_posts rest (attempts + 1) acc'
        else acc'
    else acc

def navigate_posts_via_arrows (num_posts : Nat) (steps : List NavStep) : List ContentRecord :=
  navLoop num_posts steps 0 []

/-! ## `scrape_posts_via_modal_navigation` (lines 483–522)

`openOk` is the result of `_click_first_post`; `raiseAfterOpen` models an
exception in the body after a successful open (the settle sleep / modal
plumbing), which is caught at line 514 where `_close_modal` is attempted
before returning.  The boolean in the result records whether `_close_modal`
was invoked on that exit path: it is called on the normal exit (line 508)
and on the exception exit (line 519), but the early return at line 499 when
the first post could not be clicked never reaches it. -/

structure ModalRun where
  openOk : Bool
  raiseAfterOpen : Bool
  steps : List NavStep
deriving DecidableEq, Repr

def scrape_posts_via_modal_navigation (num_posts : Nat) (r : ModalRun) :
    List ContentRecord × Bool :=
  if ¬ r.openOk then ([], false)
  else if r.raiseAfterOpen then ([], true)
  else (navigate_posts_via_arrows num_posts r.steps, true)

/-! ## Session restore and login (lines 207–404)

The driver and file system appear as an environment record: whether the
session file exists, whether unpickling/cookie application raises, the
outcomes of the four logged-in indicator probes of `_check_login_status`,
whether the current address contains a login marker (`"accounts/login" in
url or "login" in url`), and whether a `Log in` button is present.
`load_session` returns `(result, removed)` where `removed` records whether
`os.remove(SESSION_FILE)` ran — in the source that happens only in the
`except` branch (line 248), never on a clean `False` from
`_check_login_status`. -/

structure SessionEnv where
  fileExists : Bool
  loadRaises : Bool
  probes : List Bool
  urlLoginMarker : Bool
  loginButtonPresent : Bool
deriving DecidableEq, Repr

def check_login_status (e : SessionEnv) : Bool :=
  if e.probes.any id then true
  else if e.urlLoginMarker then false
  else if e.loginButtonPresent then false
  else false

def load_session (e : SessionEnv) : Bool × Bool :=
  if ¬ e.fileExists then (false, false)
  else if e.loadRaises then (false, true)
  else (check_login_status e, false)

/-- Fresh-credential environment for `login` (lines 303–404): whether the
body raises, whether a success indicator appears within the bounded wait,
whether the `slfErrorAlert` element is present after a timeout, and whether
the address still contains `accounts/login`. -/
structure FreshLoginEnv where
  raises : Bool
  successIndicator : Bool
  errorAlertPresent : Bool
  urlIsLoginPage : Bool
deriving DecidableEq, Repr

/-- `login` returns `(result, attemptedFresh, sessionSaved)`:
`attemptedFresh` records that the fresh-credential path ran, and
`sessionSaved` that `save_session` was invoked (lines 372 and 398). -/
def login (use_session : Bool) (se : SessionEnv) (fe : FreshLoginEnv) :
    Bool × Bool × Bool :=
  if use_session ∧ (load_session se).1 then (true, false, false)
  else if fe.raises then (false, true, false)
  else if fe.successIndicator then (true, true, use_session)
  else if fe.errorAlertPresent then (false, true, false)
  else if fe.urlIsLoginPage then (false, true, false)
  else (true, true, use_session)

/-! ## Batch success rate (lines 888–891)

```python
all_results["summary"]["success_rate"] =
    round((success_count / total * 100) if total else 0.0, 2)
```
Modelled over `ℚ`; Python's `round(x, 2)` rounds half to even at the
second decimal. -/

def roundHalfEven (x : ℚ) : ℤ :=
  let f := ⌊x⌋
  if x - f < 1/2 then f
  else if (1 : ℚ)/2 < x - f then f + 1
  else if f % 2 = 0 then f else f + 1

def round2 (x : ℚ) : ℚ :=
  (roundHalfEven (x * 100) : ℚ) / 100

def success_rate (total success_count : Nat) : ℚ :=
  round2 (if total = 0 then 0 else (success_count : ℚ) / (total : ℚ) * 100)

/-! ## Reel discovery (`_find_reel_urls` / `scrape_reels_traditional`,
lines 725–799)

Anchors come from the environment as `Option String` hrefs (`none` models a
missing `href` attribute or a raising `get_attribute`, both skipped).  A
matching new href is appended and the scan stops as soon as the requested
maximum is reached. -/

def findReelUrlsLoop (max_reels : Nat) : List (Option String) → List String → List String
  | [], acc => acc
  | none :: rest, acc => findReelUrlsLoop max_reels rest acc
  | some href :: rest, acc =>
    if strContainsSub "/reel/" href ∧ ¬ acc.contains href then
      let acc' := acc ++ [href]
      if max_reels ≤ acc'.length then acc' else findReelUrlsLoop max_reels rest acc'
    else findReelUrlsLoop max_reels rest acc

def find_reel_urls (max_reels : Nat) (anchors : List (Option String)) : List String :=
  findReelUrlsLoop max_reels anchors []

def scrape_reels_traditional (num_reels : Nat) (anchors : List (Option String)) :
    List ContentRecord :=
  (find_reel_urls num_reels anchors).mapIdx
    (fun i url => ⟨url, extract_content_id url, "reel", i + 1⟩)

/-! ## Per-profile scrape (`scrape_profile_content`, lines 407–462)

`raisesAtNav` models an exception at the initial `driver.get` (the only
raise point before any content is collected); `redirectedToLogin` is the
check at line 438 (`"accounts/login" in current_url or "challenge" in
current_url`).  `_wait_for_profile_load` (lines 464–481) returns `True`
even on timeout, so its early-return branch at line 431 is dead and does
not appear.  The wall-clock fields `scraped_at` / `scraping_time_seconds`
carry no logic and are omitted. -/

inductive ContentType where
  | posts
  | reels
  | both
deriving DecidableEq, Repr

structure ProfileEnv where
  raisesAtNav : Bool
  redirectedToLogin : Bool
  modal : ModalRun
  anchors : List (Option String)
deriving DecidableEq, Repr

structure ProfileData where
  username : String
  profile_url : String
  posts : List ContentRecord
  reels : List ContentRecord
deriving DecidableEq, Repr

def scrape_profile_content (username : String) (num_posts num_reels : Nat)
    (content_type : ContentType) (env : ProfileEnv) : ProfileData :=
  let base : ProfileData :=
    ⟨username, "https://www.instagram.com/" ++ username ++ "/", [], []⟩
  if env.raisesAtNav then base
  else if env.redirectedToLogin then base
  else
    let posts :=
      if (content_type = .posts ∨ content_type = .both) ∧ 0 < num_posts then
        (scrape_posts_via_modal_navigation num_posts env.modal).1
      else []
    let reels :=
      if (content_type = .reels ∨ content_type = .both) ∧ 0 < num_reels then
        scrape_reels_traditional num_reels env.anchors
      else []
    { base with posts := posts, reels := reels }

/-! ## Multi-profile orchestrator (`scrape_multiple_profiles`, lines 824–895)

The loop enumerates usernames from 1; after each profile except the last
(`if i < len(usernames)`, line 882) it sleeps a randomized pacing delay —
`delaysAfter` records the 1-based indices after which that sleep ran.
Per-profile summaries mark `success` when any posts or reels were
collected; batch totals accumulate only successful profiles' counts
(lines 871–874). -/

structure ProfileEntry where
  profile : ProfileData
  posts_count : Nat
  reels_count : Nat
  success : Bool
deriving DecidableEq, Repr

structure BatchSummary where
  total_profiles : Nat
  successful_profiles : Nat
  total_posts : Nat
  total_reels : Nat
  success_rate_value : ℚ
deriving DecidableEq, Repr

structure BatchResult where
  profiles : List ProfileEntry
  summary : BatchSummary
  delaysAfter : List Nat
deriving DecidableEq, Repr

def profilesLoop (total num_posts num_reels : Nat) (content_type : ContentType) :
    List (String × ProfileEnv) → Nat → List ProfileEntry × List Nat
  | [], _ => ([], [])
  | (u, env) :: rest, i =>
    let pd := scrape_profile_content u num_posts num_reels content_type env
    let entry : ProfileEntry :=
      ⟨pd, pd.posts.length, pd.reels.length, !pd.posts.isEmpty || !pd.reels.isEmpty⟩
    let r := profilesLoop total num_posts num_reels content_type rest (i + 1)
    (entry :: r.1, (if i < total then [i] else []) ++ r.2)

def scrape_multiple_profiles (inputs : List (String × ProfileEnv))
    (posts_per_profile reels_per_profile : Nat) (content_type : ContentType) :
    BatchResult :=
  let total := inputs.length
  let r := profilesLoop total posts_per_profile reels_per_profile content_type inputs 1
  let succ := r.1.filter (fun e => e.success)
  { profiles := r.1
  , summary :=
      { total_profiles := total
      , successful_profiles := succ.length
      , total_posts := (succ.map (fun e => e.posts_count)).sum
      , total_reels := (succ.map (fun e => e.reels_count)).sum
      , success_rate_value := success_rate total succ.length }
  , delaysAfter := r.2 }

/-! ## Helper lemmas on the string primitives -/

theorem beginsWith_append (n : List Char) :
    ∀ (l t : List Char), beginsWith n l = true → beginsWith n (l ++ t) = true := by
  induction n with
  | nil => intro l t _; rfl
  | cons a as ih =>
    intro l t h
    cases l with
    | nil => simp [beginsWith] at h
    | cons b bs =>
      by_cases hab : a = b
      · rw [List.cons_append]
        simp only [beginsWith, if_pos hab] at h ⊢
        exact ih bs t h
      · simp only [beginsWith, if_neg hab] at h
        cases h

theorem containsSub_nil_left : ∀ s : List Char, containsSub [] s = true
  | [] => rfl
  | _ :: rest => by simp [containsSub, beginsWith]

theorem containsSub_append (n : List Char) :
    ∀ (l t : List Char), containsSub n l = true → containsSub n (l ++ t) = true := by
  intro l
  induction l with
  | nil =>
    intro t h
    cases n with
    | nil => simpa using containsSub_nil_left t
    | cons a as => simp [containsSub, beginsWith] at h
  | cons c rest ih =>
    intro t h
    rw [List.cons_append]
    simp only [containsSub, Bool.or_eq_true] at h ⊢
    rcases h with h | h
    · exact Or.inl (by rw [← List.cons_append]; exact beginsWith_append n _ t h)
    · exact Or.inr (ih t h)

theorem cutAt_prefix (n : List Char) : ∀ s : List Char, cutAt n s <+: s := by
  intro s
  induction s with
  | nil => simp [cutAt]
  | cons c rest ih =>
    simp only [cutAt]
    split
    · exact List.nil_prefix
    · rcases ih with ⟨t, ht⟩
      exact ⟨t, by rw [List.cons_append, ht]⟩

theorem containsSub_eq_false_of_prefix {n l l' : List Char} (hp : l <+: l')
    (h : containsSub n l' = false) : containsSub n l = false := by
  cases hc : containsSub n l with
  | false => rfl
  | true =>
    rcases hp with ⟨t, rfl⟩
    rw [containsSub_append n l t hc] at h
    cases h

theorem containsSub_cutAt_self (n : List Char) (hn : n ≠ []) :
    ∀ s : List Char, containsSub n (cutAt n s) = false := by
  intro s
  induction s with
  | nil =>
    cases n with
    | nil => exact absurd rfl hn
    | cons a as => simp [cutAt, containsSub, beginsWith]
  | cons c rest ih =>
    simp only [cutAt]
    split
    · cases n with
      | nil => exact absurd rfl hn
      | cons a as => simp [containsSub, beginsWith]
    · next hb =>
      have h1 : beginsWith n (c :: cutAt n rest) = false := by
        cases hbw : beginsWith n (c :: cutAt n rest) with
        | false => rfl
        | true =>
          rcases cutAt_prefix n rest with ⟨t, ht⟩
          have hfull : beginsWith n ((c :: cutAt n rest) ++ t) = true :=
            beginsWith_append n _ t hbw
          rw [List.cons_append, ht] at hfull
          exact absurd hfull hb
      simp [containsSub, h1, ih]

theorem cutAt_eq_self (n : List Char) :
    ∀ s : List Char, containsSub n s = false → cutAt n s = s := by
  intro s
  induction s with
  | nil => intro _; rfl
  | cons c rest ih =>
    intro h
    simp only [containsSub, Bool.or_eq_false_iff] at h
    simp only [cutAt, h.1, Bool.false_eq_true, if_false]
    rw [ih h.2]

theorem beginsWith_concat (c : Char) :
    ∀ (n l : List Char), beginsWith n (l ++ [c]) = true →
      beginsWith n l = true ∨ n = l ++ [c]
  | [], _, _ => Or.inl rfl
  | a :: as, [], h => by
    simp only [List.nil_append] at h ⊢
    simp only [beginsWith] at h
    by_cases hac : a = c
    · rw [if_pos hac] at h
      cases as with
      | nil => exact Or.inr (by rw [hac])
      | cons x xs => simp [beginsWith] at h
    · rw [if_neg hac] at h; cases h
  | a :: as, b :: bs, h => by
    rw [List.cons_append] at h
    simp only [beginsWith] at h
    by_cases hab : a = b
    · rw [if_pos hab] at h
      rcases beginsWith_concat c as bs h with h' | h'
      · exact Or.inl (by simp [beginsWith, if_pos hab, h'])
      · exact Or.inr (by rw [List.cons_append, hab, h'])
    · rw [if_neg hab] at h; cases h

theorem containsSub_concat (n : List Char) (c : Char) :
    ∀ l : List Char, containsSub n (l ++ [c]) = true →
      containsSub n l = true ∨ n.getLast? = some c := by
  intro l
  induction l with
  | nil =>
    intro h
    simp only [List.nil_append, containsSub, Bool.or_eq_true] at h
    rcases h with h | h
    · rcases beginsWith_concat c n [] h with h' | h'
      · cases n with
        | nil => exact Or.inl (containsSub_nil_left [])
        | cons a as => simp [beginsWith] at h'
      · simp [h']
    · cases n with
      | nil => exact Or.inl rfl
      | cons a as => simp [containsSub, beginsWith] at h
  | cons a rest ih =>
    intro h
    rw [List.cons_append] at h
    simp only [containsSub, Bool.or_eq_true] at h ⊢
    rcases h with h | h
    · rcases beginsWith_concat c n (a :: rest) h with h' | h'
      · exact Or.inl (Or.inl h')
      · exact Or.inr (by rw [h']; exact List.getLast?_concat _)
    · rcases ih h with h' | h'
      · exact Or.inl (Or.inr h')
      · exact Or.inr h'

theorem containsSub_concat_eq_false {n : List Char} {c : Char}
    (hlast : n.getLast? ≠ some c) {l : List Char} (h : containsSub n l = false) :
    containsSub n (l ++ [c]) = false := by
  cases hc : containsSub n (l ++ [c]) with
  | false => rfl
  | true =>
    rcases containsSub_concat n c l hc with h' | h'
    · rw [h'] at h; cases h
    · exact absurd h' hlast

/-! ## Normalization: the cleaned URL holds no marker and ends in `/` -/

theorem stripSegments_not_contains (u : List Char) :
    containsSub "/liked_by".toList (stripSegments u) = false ∧
    containsSub "/comments".toList (stripSegments u) = false ∧
    containsSub "/tagged".toList (stripSegments u) = false ∧
    containsSub "?".toList (stripSegments u) = false := by
  have p1 := cutAt_prefix "/comments".toList (cutAt "/liked_by".toList u)
  have p2 := cutAt_prefix "/tagged".toList
    (cutAt "/comments".toList (cutAt "/liked_by".toList u))
  have p3 := cutAt_prefix "?".toList
    (cutAt "/tagged".toList (cutAt "/comments".toList (cutAt "/liked_by".toList u)))
  refine ⟨?_, ?_, ?_, ?_⟩
  · exact containsSub_eq_false_of_prefix (p3.trans (p2.trans p1))
      (containsSub_cutAt_self _ (by decide) u)
  · exact containsSub_eq_false_of_prefix (p3.trans p2)
      (containsSub_cutAt_self _ (by decide) _)
  · exact containsSub_eq_false_of_prefix p3 (containsSub_cutAt_self _ (by decide) _)
  · exact containsSub_cutAt_self _ (by decide) _

theorem endsWithSlash_cleanModalUrl (u : List Char) :
    endsWithSlash (cleanModalUrl u) = true := by
  simp only [cleanModalUrl]
  split
  · next h => exact h
  · simp [endsWithSlash, List.getLast?_concat]

theorem cleanModalUrl_not_contains {m : List Char} (hlast : m.getLast? ≠ some '/')
    (u : List Char) (h : containsSub m (stripSegments u) = false) :
    containsSub m (cleanModalUrl u) = false := by
  simp only [cleanModalUrl]
  split
  · exact h
  · exact containsSub_concat_eq_false hlast h

theorem stripSegments_cleanModalUrl (u : List Char) :
    stripSegments (cleanModalUrl u) = cleanModalUrl u := by
  obtain ⟨h1, h2, h3, h4⟩ := stripSegments_not_contains u
  have k1 := cleanModalUrl_not_contains (m := "/liked_by".toList) (by decide) u h1
  have k2 := cleanModalUrl_not_contains (m := "/comments".toList) (by decide) u h2
  have k3 := cleanModalUrl_not_contains (m := "/tagged".toList) (by decide) u h3
  have k4 := cleanModalUrl_not_contains (m := "?".toList) (by decide) u h4
  simp only [stripSegments]
  rw [cutAt_eq_self _ _ k1, cutAt_eq_self _ _ k2, cutAt_eq_self _ _ k3,
    cutAt_eq_self _ _ k4]

theorem cleanModalUrl_idem (u : List Char) :
    cleanModalUrl (cleanModalUrl u) = cleanModalUrl u := by
  have hstrip := stripSegments_cleanModalUrl u
  have hend := endsWithSlash_cleanModalUrl u
  conv_lhs => rw [cleanModalUrl]
  rw [hstrip, hend]
  simp

/-- C8: URL normalization (the cleaning step of `_get_current_modal_post_url`
— stripping `/liked_by`, `/comments`, `/tagged` and query suffixes, then
canonicalizing the trailing `/`) is idempotent: applying it to an
already-normalized reference returns that reference unchanged. -/
theorem normalizeModalUrl_idempotent :
    ∀ s : String, normalizeModalUrl (normalizeModalUrl s) = normalizeModalUrl s := by
  intro s
  simp only [normalizeModalUrl]
  rw [show (String.mk (cleanModalUrl s.toList)).toList = cleanModalUrl s.toList from rfl]
  rw [cleanModalUrl_idem]

/-- C7: `extract_content_id` maps a reference containing `/p/abc123/` to
`"abc123"`, a reference containing `/reel/xyz789/?igsh=...` to `"xyz789"`,
and any reference containing neither the `/p/` nor the `/reel/` marker to
`"unknown"`. -/
theorem extract_content_id_spec :
    extract_content_id "https://www.instagram.com/p/abc123/" = "abc123" ∧
    extract_content_id "https://www.instagram.com/reel/xyz789/?igsh=track" = "xyz789" ∧
    ∀ url : String, strContainsSub "/p/" url = false →
      strContainsSub "/reel/" url = false → extract_content_id url = "unknown" := by
  refine ⟨by decide, by decide, ?_⟩
  intro url h1 h2
  simp [extract_content_id, h1, h2]

theorem extract_content_id_spec_witness :
    extract_content_id "https://www.instagram.com/explore/" = "unknown" :=
  extract_content_id_spec.2.2 "https://www.instagram.com/explore/" (by decide) (by decide)

/-! ## Modal traversal invariants -/

theorem range'_snoc (s n : ℕ) : List.range' s (n + 1) = List.range' s n ++ [s + n] := by
  induction n generalizing s with
  | zero => simp [List.range']
  | succ k ih =>
    rw [List.range']
    rw [ih (s + 1)]
    simp [List.range', Nat.add_assoc, Nat.add_comm 1 k]

theorem collectRecord_invariant (num_posts : Nat) (acc : List ContentRecord)
    (x : Option String) (hlt : acc.length < num_posts)
    (hord : acc.map ContentRecord.order = List.range' 1 acc.length)
    (hnd : (acc.map ContentRecord.content_url).Nodup) :
    (collectRecord acc x).length ≤ num_posts ∧
    (collectRecord acc x).map ContentRecord.order
      = List.range' 1 (collectRecord acc x).length ∧
    ((collectRecord acc x).map ContentRecord.content_url).Nodup := by
  cases x with
  | none => exact ⟨Nat.le_of_lt hlt, hord, hnd⟩
  | some u =>
    simp only [collectRecord]
    by_cases hmem : u ∈ acc.map ContentRecord.content_url
    · rw [if_pos hmem]
      exact ⟨Nat.le_of_lt hlt, hord, hnd⟩
    · rw [if_neg hmem]
      refine ⟨?_, ?_, ?_⟩
      · simp only [List.length_append, List.length_singleton]
        omega
      · have hl : (acc ++ [(⟨u, extract_content_id u, "post", acc.length + 1⟩ :
            ContentRecord)]).length = acc.length + 1 := by simp
        rw [List.map_append, hord, hl, range'_snoc]
        simp [Nat.add_comm]
      · rw [List.map_append]
        simp [List.nodup_append, hnd, hmem]

theorem navLoop_invariant (num_posts : Nat) :
    ∀ (steps : List NavStep) (attempts : Nat) (acc : List ContentRecord),
      acc.length ≤ num_posts →
      acc.map ContentRecord.order = List.range' 1 acc.length →
      (acc.map ContentRecord.content_url).Nodup →
      (navLoop num_posts steps attempts acc).length ≤ num_posts ∧
      (navLoop num_posts steps attempts acc).map ContentRecord.order
        = List.range' 1 (navLoop num_posts steps attempts acc).length ∧
      ((navLoop num_posts steps attempts acc).map ContentRecord.content_url).Nodup := by
  intro steps
  induction steps with
  | nil => intro attempts acc hlen hord hnd; exact ⟨hlen, hord, hnd⟩
  | cons step rest ih =>
    intro attempts acc hlen hord hnd
    cases step with
    | err =>
      rw [navLoop]
      split
      · exact ⟨hlen, hord, hnd⟩
      · exact ⟨hlen, hord, hnd⟩
    | view addr next =>
      rw [navLoop]
      split
      · next hcond =>
        have H := collectRecord_invariant num_posts acc
          (getCurrentModalPostUrl addr) hcond.1 hord hnd
        dsimp only
        split
        · exact H
        · split
          · exact ih (attempts + 1) _ H.1 H.2.1 H.2.2
          · exact H
      · exact ⟨hlen, hord, hnd⟩

/-- C1: for every requested count `N ≥ 0`, the modal navigation traversal
returns at most `N` records, their `order` fields are exactly
`1, 2, …, len(result)` in sequence order, and no two records share a
normalized `content_url`. -/
theorem modal_navigation_bounded_ordered_dedup :
    ∀ (num_posts : Nat) (r : ModalRun),
      (scrape_posts_via_modal_navigation num_posts r).1.length ≤ num_posts ∧
      (scrape_posts_via_modal_navigation num_posts r).1.map ContentRecord.order
        = List.range' 1 (scrape_posts_via_modal_navigation num_posts r).1.length ∧
      ((scrape_posts_via_modal_navigation num_posts r).1.map
          ContentRecord.content_url).Nodup := by
  intro num_posts r
  simp only [scrape_posts_via_modal_navigation]
  split
  · exact ⟨Nat.zero_le _, rfl, List.nodup_nil⟩
  · split
    · exact ⟨Nat.zero_le _, rfl, List.nodup_nil⟩
    · simp only [navigate_posts_via_arrows]
      exact navLoop_invariant num_posts r.steps 0 [] (Nat.zero_le _) rfl List.nodup_nil

/-- C2 as stated is false: when the open-first-item action
(`_click_first_post`) fails, `scrape_posts_via_modal_navigation` returns at
line 499 without invoking `_close_modal`. -/
theorem close_modal_claim_counterexample :
    (scrape_posts_via_modal_navigation 3 ⟨false, false, []⟩).2 = false := by decide

/-- C2 amended: `_close_modal` is invoked on every exit path on which the
open-first-item action succeeded — normal completion and the exception
path alike; when the open fails, the function returns the empty result
without invoking it. -/
theorem close_modal_on_exit_paths :
    ∀ (num_posts : Nat) (r : ModalRun),
      (r.openOk = true → (scrape_posts_via_modal_navigation num_posts r).2 = true) ∧
      (r.openOk = false → scrape_posts_via_modal_navigation num_posts r = ([], false)) := by
  intro num_posts r
  obtain ⟨o, ra, st⟩ := r
  constructor
  · intro h
    subst h
    cases ra <;> simp [scrape_posts_via_modal_navigation]
  · intro h
    subst h
    simp [scrape_posts_via_modal_navigation]

theorem close_modal_on_exit_paths_witness :
    (scrape_posts_via_modal_navigation 2 ⟨true, false, []⟩).2 = true :=
  (close_modal_on_exit_paths 2 ⟨true, false, []⟩).1 rfl

/-! ## The reader's output shape (claim C10) -/

theorem getCurrentModalPostUrl_no_marker (s : String)
    (h : strContainsSub "/p/" s = false) : getCurrentModalPostUrl (some s) = none := by
  simp [getCurrentModalPostUrl, h]

theorem getCurrentModalPostUrl_endsWithSlash (a : Option String) (u : String)
    (h : getCurrentModalPostUrl a = some u) : endsWithSlash u.toList = true := by
  cases a with
  | none => cases h
  | some s =>
    simp only [getCurrentModalPostUrl] at h
    split at h
    · rw [Option.some_inj] at h
      subst h
      exact endsWithSlash_cleanModalUrl s.toList
    · cases h

theorem collectRecord_endsWithSlash (acc : List ContentRecord) (a : Option String)
    (hacc : ∀ rec ∈ acc, endsWithSlash rec.content_url.toList = true) :
    ∀ rec ∈ collectRecord acc (getCurrentModalPostUrl a),
      endsWithSlash rec.content_url.toList = true := by
  cases hget : getCurrentModalPostUrl a with
  | none => exact hacc
  | some u =>
    simp only [collectRecord]
    by_cases hmem : u ∈ acc.map ContentRecord.content_url
    · rw [if_pos hmem]; exact hacc
    · rw [if_neg hmem]
      intro rec hrec
      rcases List.mem_append.mp hrec with hrec | hrec
      · exact hacc rec hrec
      · rcases List.mem_singleton.mp hrec with rfl
        exact getCurrentModalPostUrl_endsWithSlash a u hget

theorem navLoop_endsWithSlash (num_posts : Nat) :
    ∀ (steps : List NavStep) (attempts : Nat) (acc : List ContentRecord),
      (∀ rec ∈ acc, endsWithSlash rec.content_url.toList = true) →
      ∀ rec ∈ navLoop num_posts steps attempts acc,
        endsWithSlash rec.content_url.toList = true := by
  intro steps
  induction steps with
  | nil => intro attempts acc hacc; exact hacc
  | cons step rest ih =>
    intro attempts acc hacc
    cases step with
    | err =>
      rw [navLoop]
      split
      · exact hacc
      · exact hacc
    | view addr next =>
      rw [navLoop]
      split
      · have H := collectRecord_endsWithSlash acc addr hacc
        dsimp only
        split
        · exact H
        · split
          · exact ih (attempts + 1) _ H
          · exact H
      · exact hacc

/-- C10 as stated is false: when the viewer's address carries the `/p/`
marker only inside its query string, the cleaning step removes it, and a
record is appended whose `content_url` does not contain `/p/`. -/
theorem modal_record_without_p_marker :
    ((scrape_posts_via_modal_navigation 1
        ⟨true, false, [NavStep.view (some "https://www.instagram.com/x?u=/p/a/") true]⟩).1.map
      ContentRecord.content_url) = ["https://www.instagram.com/x/"] ∧
    strContainsSub "/p/" "https://www.instagram.com/x/" = false := by decide

/-- C10 amended: every record appended by the modal traversal has a
`content_url` ending in `/`; the `/p/`-marker test is applied to the raw
viewer address, so when that address lacks `/p/` the reader returns
nothing and the viewing step appends no record. -/
theorem modal_records_slash_and_skip :
    (∀ s : String, strContainsSub "/p/" s = false →
      getCurrentModalPostUrl (some s) = none) ∧
    (∀ (num_posts : Nat) (r : ModalRun) (rec : ContentRecord),
      rec ∈ (scrape_posts_via_modal_navigation num_posts r).1 →
      endsWithSlash rec.content_url.toList = true) ∧
    (∀ (num_posts : Nat) (rest : List NavStep) (attempts : Nat)
        (acc : List ContentRecord) (s : String) (next : Bool),
      strContainsSub "/p/" s = false →
      navLoop num_posts (NavStep.view (some s) next :: rest) attempts acc =
        if acc.length < num_posts ∧ attempts < num_posts + 2 then
          (if next then navLoop num_posts rest (attempts + 1) acc else acc)
        else acc) := by
  refine ⟨getCurrentModalPostUrl_no_marker, ?_, ?_⟩
  · intro num_posts r rec hrec
    revert hrec
    simp only [scrape_posts_via_modal_navigation]
    split
    · intro hrec; cases hrec
    · split
      · intro hrec; cases hrec
      · simp only [navigate_posts_via_arrows]
        intro hrec
        exact navLoop_endsWithSlash num_posts r.steps 0 [] (by intro rec h; cases h)
          rec hrec
  · intro num_posts rest attempts acc s next h
    rw [navLoop]
    split
    · next hcond =>
      rw [getCurrentModalPostUrl_no_marker s h]
      dsimp only [collectRecord]
      rw [if_neg (by omega)]
    · rfl

theorem modal_records_slash_and_skip_witness :
    getCurrentModalPostUrl (some "https://www.instagram.com/reel/z/") = none :=
  modal_records_slash_and_skip.1 "https://www.instagram.com/reel/z/" (by decide)

/-! ## Session restore (claim C3) -/

/-- C3 as stated is false: a stored session whose restore fails every
indicator probe and lands on a login address makes `load_session` return
`False`, but the session file is NOT removed — `os.remove(SESSION_FILE)`
runs only in the exception handler (line 248), which a clean validation
failure never reaches.  The pair is `(result, removed)`; the claim
predicts `(false, true)`, the code gives `(false, false)`. -/
theorem session_discard_counterexample :
    load_session ⟨true, false, [false, false, false, false], true, false⟩
      = (false, false) := by decide

/-- C3 amended: under the claim's hypotheses `load_session` returns `False`
but the stored record is retained (removal happens only when restore raises,
e.g. on an unreadable file); the surrounding `login` call then proceeds to
a fresh credential login in the same attempt. -/
theorem session_restore_fail_keeps_record :
    ∀ (e : SessionEnv) (fe : FreshLoginEnv),
      e.fileExists = true → e.loadRaises = false →
      e.probes.any id = false → e.urlLoginMarker = true →
      load_session e = (false, false) ∧ (login true e fe).2.1 = true := by
  intro e fe h1 h2 h3 h4
  have hchk : check_login_status e = false := by simp [check_login_status, h3, h4]
  have hload : load_session e = (false, false) := by simp [load_session, h1, h2, hchk]
  refine ⟨hload, ?_⟩
  obtain ⟨fr, fs, fa, fu⟩ := fe
  cases fr <;> cases fs <;> cases fa <;> cases fu <;> simp [login, hload]

theorem session_restore_fail_keeps_record_witness :
    load_session ⟨true, false, [false], true, false⟩ = (false, false) ∧
    (login true ⟨true, false, [false], true, false⟩ ⟨false, true, false, false⟩).2.1 = true :=
  session_restore_fail_keeps_record ⟨true, false, [false], true, false⟩
    ⟨false, true, false, false⟩ rfl rfl rfl rfl

/-! ## Selector fallback (claim C4) -/

/-- C4: for every selector-fallback action: if some strategy succeeds after
all earlier strategies fail (a raising strategy counts as failed), the
action returns success; if every strategy fails, the action returns failure
— the action's result is a plain boolean, so no exception escapes.
`_go_to_next_post` and `_click_first_post` are instances of the runner. -/
theorem selector_fallback_spec :
    (∀ (pre rest : List StratOutcome), (∀ o ∈ pre, o ≠ StratOutcome.success) →
      runFallback (pre ++ StratOutcome.success :: rest) = true) ∧
    (∀ outs : List StratOutcome, (∀ o ∈ outs, o ≠ StratOutcome.success) →
      runFallback outs = false) ∧
    (∀ o1 o2 o3 o4 o5, go_to_next_post o1 o2 o3 o4 o5 = runFallback [o1, o2, o3, o4, o5]) ∧
    (∀ o1 o2 o3, click_first_post o1 o2 o3 = runFallback [o1, o2, o3]) := by
  refine ⟨?_, ?_, fun _ _ _ _ _ => rfl, fun _ _ _ => rfl⟩
  · intro pre
    induction pre with
    | nil => intro rest _; rfl
    | cons o pre ih =>
      intro rest hpre
      cases o with
      | success => exact absurd rfl (hpre _ (List.mem_cons_self _ _))
      | failure => exact ih rest (fun o ho => hpre o (List.mem_cons_of_mem _ ho))
      | raises => exact ih rest (fun o ho => hpre o (List.mem_cons_of_mem _ ho))
  · intro outs
    induction outs with
    | nil => intro _; rfl
    | cons o rest ih =>
      intro h
      cases o with
      | success => exact absurd rfl (h _ (List.mem_cons_self _ _))
      | failure => exact ih (fun o ho => h o (List.mem_cons_of_mem _ ho))
      | raises => exact ih (fun o ho => h o (List.mem_cons_of_mem _ ho))

theorem selector_fallback_spec_witness :
    runFallback [StratOutcome.failure, StratOutcome.raises, StratOutcome.success] = true ∧
    runFallback [StratOutcome.failure, StratOutcome.failure] = false :=
  ⟨selector_fallback_spec.1 [StratOutcome.failure, StratOutcome.raises] [] (by decide),
   selector_fallback_spec.2.1 [StratOutcome.failure, StratOutcome.failure] (by decide)⟩

/-! ## Optimistic login fallback (claim C6) -/

/-- C6: in fresh credential login, when the bounded wait for success
indicators times out, no explicit failure alert is present, and the current
address is not the login address, `login` returns `True`, and when
`use_session` is set it persists a new session record via `save_session`. -/
theorem login_optimistic_timeout :
    ∀ (use_session : Bool) (se : SessionEnv) (fe : FreshLoginEnv),
      ¬(use_session = true ∧ (load_session se).1 = true) →
      fe.raises = false → fe.successIndicator = false →
      fe.errorAlertPresent = false → fe.urlIsLoginPage = false →
      (login use_session se fe).1 = true ∧
      (login use_session se fe).2.2 = use_session := by
  intro us se fe hns h1 h2 h3 h4
  rw [login, if_neg hns, if_neg (by simp [h1]), if_neg (by simp [h2]),
    if_neg (by simp [h3]), if_neg (by simp [h4])]
  exact ⟨rfl, rfl⟩

theorem login_optimistic_timeout_witness :
    (login true ⟨false, false, [], false, false⟩ ⟨false, false, false, false⟩).1 = true ∧
    (login true ⟨false, false, [], false, false⟩ ⟨false, false, false, false⟩).2.2 = true :=
  login_optimistic_timeout true ⟨false, false, [], false, false⟩
    ⟨false, false, false, false⟩ (by decide) rfl rfl rfl rfl

/-! ## Success rate numerics (claim C9) -/

theorem roundHalfEven_intCast (z : ℤ) : roundHalfEven (z : ℚ) = z := by
  simp [roundHalfEven]

theorem roundHalfEven_close (x : ℚ) : |(roundHalfEven x : ℚ) - x| ≤ 1 / 2 := by
  have h0 : (0 : ℚ) ≤ x - ⌊x⌋ := sub_nonneg.mpr (Int.floor_le x)
  have h1 : x - ⌊x⌋ < 1 := by
    have h := Int.lt_floor_add_one x
    linarith
  simp only [roundHalfEven]
  split_ifs with hlt hgt hev
  · rw [abs_le]; constructor <;> linarith
  · rw [abs_le]; push_cast; constructor <;> linarith
  · rw [abs_le]; constructor <;> linarith
  · rw [abs_le]; push_cast; constructor <;> linarith

theorem round2_close (x : ℚ) : |round2 x - x| ≤ 1 / 200 := by
  have h := roundHalfEven_close (x * 100)
  rw [round2]
  have hsplit : (roundHalfEven (x * 100) : ℚ) / 100 - x
      = ((roundHalfEven (x * 100) : ℚ) - x * 100) / 100 := by ring
  rw [hsplit, abs_div, abs_of_pos (by norm_num : (0 : ℚ) < 100)]
  linarith

theorem roundHalfEven_third : roundHalfEven ((10000 : ℚ) / 3) = 3333 := by
  have hfloor : ⌊(10000 : ℚ) / 3⌋ = 3333 := by
    rw [Int.floor_eq_iff]
    constructor <;> norm_num
  have hfract : (10000 : ℚ) / 3 - ((3333 : ℤ) : ℚ) < 1 / 2 := by
    push_cast
    norm_num
  simp only [roundHalfEven]
  rw [hfloor, if_pos hfract]

theorem success_rate_3_1 : success_rate 3 1 = 3333 / 100 := by
  have harg : (if (3 : ℕ) = 0 then (0 : ℚ) else ((1 : ℕ) : ℚ) / ((3 : ℕ) : ℚ) * 100)
      = 100 / 3 := by norm_num
  have hmul : (100 : ℚ) / 3 * 100 = 10000 / 3 := by norm_num
  rw [success_rate, harg, round2, hmul, roundHalfEven_third]
  norm_num

/-- C9 as stated is false: the code rounds the percentage to two decimals
(line 891, `round(..., 2)`), so for 1 success of 3 profiles the summary
holds `33.33`, not `100/3`. -/
theorem success_rate_exact_counterexample :
    success_rate 3 1 ≠ (1 : ℚ) / 3 * 100 := by
  rw [success_rate_3_1]
  norm_num

/-- C9 amended: `success_rate` is `successful_profiles / total_profiles *
100` rounded to two decimal places — hence within `1/200` of the exact
percentage, and exactly `0` when `total_profiles = 0`; no division fault
in either case. -/
theorem success_rate_rounded :
    ∀ (total succ : Nat),
      (total = 0 → success_rate total succ = 0) ∧
      (total ≠ 0 →
        success_rate total succ = round2 ((succ : ℚ) / (total : ℚ) * 100) ∧
        |success_rate total succ - (succ : ℚ) / (total : ℚ) * 100| ≤ 1 / 200) := by
  intro total succ
  have hz : roundHalfEven (0 : ℚ) = 0 := by
    have h := roundHalfEven_intCast 0
    norm_num at h
    exact h
  constructor
  · intro h
    subst h
    rw [success_rate, if_pos rfl, round2]
    norm_num [hz]
  · intro h
    refine ⟨by rw [success_rate, if_neg h], ?_⟩
    rw [success_rate, if_neg h]
    exact round2_close _

theorem success_rate_rounded_witness :
    success_rate 0 7 = 0 ∧
    success_rate 5 2 = round2 (((2 : ℕ) : ℚ) / ((5 : ℕ) : ℚ) * 100) :=
  ⟨(success_rate_rounded 0 7).1 rfl, ((success_rate_rounded 5 2).2 (by decide)).1⟩

/-! ## Orchestrator isolation (claim C5) -/

set_option maxRecDepth 4000 in
/-- C5: for usernames `[A, B, C]` where B's navigation redirects to a
login/challenge marker, the batch holds exactly three profile entries in
input order; B's posts and reels are empty while A and C are scraped
normally; and the inter-profile pacing delay runs exactly after profiles 1
and 2 — never after the last. -/
theorem orchestrator_isolation :
    ∀ (A B C : String) (eA eB eC : ProfileEnv) (pp rp : Nat),
      eA.raisesAtNav = false → eA.redirectedToLogin = false →
      eB.raisesAtNav = false → eB.redirectedToLogin = true →
      eC.raisesAtNav = false → eC.redirectedToLogin = false →
      (scrape_multiple_profiles [(A, eA), (B, eB), (C, eC)] pp rp
            ContentType.both).profiles.map
          (fun e => (e.profile.username, e.profile.posts, e.profile.reels)) =
        [(A, (if 0 < pp then (scrape_posts_via_modal_navigation pp eA.modal).1 else []),
             (if 0 < rp then scrape_reels_traditional rp eA.anchors else [])),
         (B, ([] : List ContentRecord), ([] : List ContentRecord)),
         (C, (if 0 < pp then (scrape_posts_via_modal_navigation pp eC.modal).1 else []),
             (if 0 < rp then scrape_reels_traditional rp eC.anchors else []))] ∧
      (scrape_multiple_profiles [(A, eA), (B, eB), (C, eC)] pp rp
          ContentType.both).delaysAfter = [1, 2] := by
  intro A B C eA eB eC pp rp a1 a2 b1 b2 c1 c2
  constructor
  · simp [scrape_multiple_profiles, profilesLoop, scrape_profile_content,
      a1, a2, b1, b2, c1, c2]
  · simp [scrape_multiple_profiles, profilesLoop]

theorem orchestrator_isolation_witness :
    (scrape_multiple_profiles
        [("a", ⟨false, false, ⟨true, false, []⟩, []⟩),
         ("b", ⟨false, true, ⟨true, false, []⟩, []⟩),
         ("c", ⟨false, false, ⟨true, false, []⟩, []⟩)] 1 1
        ContentType.both).delaysAfter = [1, 2] :=
  (orchestrator_isolation "a" "b" "c" ⟨false, false, ⟨true, false, []⟩, []⟩
    ⟨false, true, ⟨true, false, []⟩, []⟩ ⟨false, false, ⟨true, false, []⟩, []⟩
    1 1 rfl rfl rfl rfl rfl rfl).2

end Scraper
